import Mathlib

/-!
Shallow embedding of the MeshSwarm core (src/src/MeshSwarm.cpp, src/src/MeshSwarm.h,
src/src/MeshSwarmConfig.h) and proofs about its shared-state store, coordinator
election, peer pruning, telemetry debounce and OTA chunk producer.

Machine integers (`uint32_t`, `unsigned long` on ESP32, both 32-bit) are modelled
as `Nat` with explicit reduction modulo `2 ^ 32` at the arithmetic operations where
overflow can occur.  Callbacks (state watchers) are modelled by identifier: a
watcher registry maps a key to the list of registered callback identifiers, and
"firing" a watcher is recorded as an explicit event value.
-/

namespace MeshSwarm

/-- Modulus of the 32-bit unsigned integers used for versions, node ids and the
millisecond clock. -/
def U32 : Nat := 2 ^ 32

/-- Wrapping 32-bit unsigned subtraction, as performed by C expressions such as
`now - lastSeen` on `unsigned long` operands. -/
def u32sub (a b : Nat) : Nat := (a % U32 + U32 - b % U32) % U32

/-- `struct StateEntry` (MeshSwarm.h lines 132-137): value, version, origin and a
node-local timestamp. -/
structure StateEntry where
  value : String
  version : Nat
  origin : Nat
  timestamp : Nat
deriving Repr, DecidableEq

/-- The shared state store `std::map<String, StateEntry> sharedState`, modelled as
a partial map from keys to entries. -/
def Store : Type := String → Option StateEntry

/-- The empty store (initial state of a node). -/
def emptyStore : Store := fun _ => none

/-- The payload of a `MSG_STATE_SET` envelope: fields `k`, `v`, `ver`, `org`
(MeshSwarm.cpp lines 348-356 and 384-387).  A missing `k` or `v` field decodes to
`""` and a missing `ver` field decodes to `0`, so the record also represents
messages with absent fields. -/
structure StateSetMsg where
  k : String
  v : String
  ver : Nat
  org : Nat
deriving Repr, DecidableEq

/-- `std::map<String, std::vector<StateCallback>> stateWatchers`, with callbacks
identified by natural numbers. -/
def Watchers : Type := String → List Nat

/-- A record of one watcher callback invocation `cb(key, value, oldValue)`. -/
structure FiredCall where
  cb : Nat
  key : String
  value : String
  oldValue : String
deriving Repr, DecidableEq

/-- `MeshSwarm::triggerWatchers` (MeshSwarm.cpp lines 328-341): invoke the
callbacks registered for `key`, then the wildcard callbacks registered for
`"*"`. -/
def triggerWatchers (w : Watchers) (key value oldValue : String) : List FiredCall :=
  ((w key).map fun cb => ⟨cb, key, value, oldValue⟩) ++
    ((w "*").map fun cb => ⟨cb, key, value, oldValue⟩)

/-- `MeshSwarm::handleStateSet` (MeshSwarm.cpp lines 383-425).  Returns the new
store together with the list of watcher invocations.  The display-only
`lastStateChange` string and serial logging are omitted. -/
def handleStateSet (w : Watchers) (now : Nat) (store : Store) (m : StateSetMsg) :
    Store × List FiredCall :=
  if m.k.length = 0 then (store, [])
  else
    let oldEntry := store m.k
    let shouldUpdate :=
      match oldEntry with
      | none => true
      | some existing =>
          decide (m.ver > existing.version) ||
            (decide (m.ver = existing.version) && decide (m.org < existing.origin))
    let oldValue :=
      match oldEntry with
      | none => ""
      | some existing => existing.value
    if shouldUpdate && !(oldValue = m.v : Bool) then
      (fun key => if key = m.k then some ⟨m.v, m.ver, m.org, now⟩ else store key,
        triggerWatchers w m.k m.v oldValue)
    else
      (store, [])

/-- `MeshSwarm::handleStateSync` (MeshSwarm.cpp lines 427-438): apply each entry
of the snapshot through `handleStateSet`, accumulating watcher invocations. -/
def handleStateSync (w : Watchers) (now : Nat) (store : Store)
    (msgs : List StateSetMsg) : Store × List FiredCall :=
  msgs.foldl
    (fun acc m =>
      let r := handleStateSet w now acc.1 m
      (r.1, acc.2 ++ r.2))
    (store, [])

/-- The snapshot built by `MeshSwarm::broadcastFullState` (MeshSwarm.cpp lines
358-374): one `{k, v, ver, org}` object per key of the store.  `keys` enumerates
the keys of the `std::map` (each key at most once). -/
def snapshot (keys : List String) (s : Store) : List StateSetMsg :=
  keys.filterMap fun k => (s k).map fun e => ⟨k, e.value, e.version, e.origin⟩

/-- `STATE_TELEMETRY_MIN_INTERVAL` (MeshSwarm.h line 102): minimum milliseconds
between state-triggered telemetry pushes. -/
def STATE_TELEMETRY_MIN_INTERVAL : Nat := 2000

/-- The fields of a `MeshSwarm` node that the state-management operations read
and write: the store, the local node id, and the telemetry debounce state
(MeshSwarm.h lines 275-303). -/
structure Node where
  myId : Nat
  sharedState : Store
  telemetryEnabled : Bool
  lastTelemetryPush : Nat
  lastStateTelemetryPush : Nat

/-- The externally visible effects of one state-management call: watcher
invocations, broadcast `STATE_SET` messages, and the number of telemetry pushes
performed (via `pushTelemetry` or `sendTelemetryToGateway`). -/
structure SetEffects where
  fired : List FiredCall
  broadcasts : List StateSetMsg
  telemetryPushes : Nat
deriving Repr, DecidableEq

/-- `MeshSwarm::broadcastState` (MeshSwarm.cpp lines 343-356): broadcast the
entry stored for `key` as a `STATE_SET` message, or nothing if the key is
absent. -/
def broadcastState (store : Store) (key : String) : List StateSetMsg :=
  match store key with
  | none => []
  | some entry => [⟨key, entry.value, entry.version, entry.origin⟩]

/-- The store-mutation body shared verbatim by `MeshSwarm::setState`
(MeshSwarm.cpp lines 204-227) and by each loop iteration of
`MeshSwarm::setStates` (lines 260-288): compute the old value and the bumped
version, return unchanged if the value is unmodified, otherwise store the new
entry, trigger watchers and broadcast.  The version bump is `uint32_t`
arithmetic, hence the reduction modulo `U32`.  Result: `(changed, store,
watcher invocations, broadcasts)`. -/
def setStateCore (w : Watchers) (myId now : Nat) (store : Store)
    (key value : String) : Bool × Store × List FiredCall × List StateSetMsg :=
  let oldValue :=
    match store key with
    | none => ""
    | some e => e.value
  let newVersion :=
    match store key with
    | none => 1
    | some e => (e.version + 1) % U32
  if (store key).isSome && (oldValue = value : Bool) then
    (false, store, [], [])
  else
    let entry : StateEntry := ⟨value, newVersion, myId, now⟩
    let store1 : Store := fun k => if k = key then some entry else store k
    (true, store1, triggerWatchers w key value oldValue, broadcastState store1 key)

/-- The telemetry block shared by `MeshSwarm::setState` (MeshSwarm.cpp lines
229-251) and `MeshSwarm::setStates` (lines 290-312): when telemetry is enabled
and the debounce interval has elapsed, push once and set both timestamps to
`now`; otherwise skip.  Returns the updated node and the number of pushes. -/
def stateTelemetry (now : Nat) (n : Node) : Node × Nat :=
  if n.telemetryEnabled then
    if u32sub now n.lastStateTelemetryPush ≥ STATE_TELEMETRY_MIN_INTERVAL then
      ({ n with lastTelemetryPush := now, lastStateTelemetryPush := now }, 1)
    else
      (n, 0)
  else
    (n, 0)

/-- `MeshSwarm::setState` (MeshSwarm.cpp lines 203-254): local write of one
key.  Returns `(changed, node, effects)`. -/
def setState (w : Watchers) (now : Nat) (n : Node) (key value : String) :
    Bool × Node × SetEffects :=
  let r := setStateCore w n.myId now n.sharedState key value
  if r.1 then
    let n1 := { n with sharedState := r.2.1 }
    let t := stateTelemetry now n1
    (true, t.1, ⟨r.2.2.1, r.2.2.2, t.2⟩)
  else
    (false, n, ⟨[], [], 0⟩)

/-- `MeshSwarm::setStates` (MeshSwarm.cpp lines 256-315): batch local write.
Each pair goes through the same store-mutation body as `setState`; pairs whose
value is unchanged are skipped; at the end at most one debounced telemetry push
covers the whole batch. -/
def setStates (w : Watchers) (now : Nat) (n : Node)
    (pairs : List (String × String)) : Bool × Node × SetEffects :=
  let r := pairs.foldl
    (fun (acc : Bool × Store × List FiredCall × List StateSetMsg) kv =>
      let s := setStateCore w n.myId now acc.2.1 kv.1 kv.2
      (acc.1 || s.1, s.2.1, acc.2.2.1 ++ s.2.2.1, acc.2.2.2 ++ s.2.2.2))
    (false, n.sharedState, [], [])
  let n1 := { n with sharedState := r.2.1 }
  if r.1 then
    let t := stateTelemetry now n1
    (true, t.1, ⟨r.2.2.1, r.2.2.2, t.2⟩)
  else
    (false, n1, ⟨r.2.2.1, r.2.2.2, 0⟩)

/-- `struct Peer` (MeshSwarm.h lines 139-145). -/
structure Peer where
  id : Nat
  name : String
  role : String
  lastSeen : Nat
  alive : Bool
deriving Repr, DecidableEq

/-- `MeshSwarm::pruneDeadPeers` (MeshSwarm.cpp lines 554-563): erase every peer
whose heartbeat is older than 15000 ms, keep all others.  The peer table
`std::map<uint32_t, Peer>` is modelled as an association list. -/
def pruneDeadPeers (now : Nat) (peers : List (Nat × Peer)) : List (Nat × Peer) :=
  peers.filter fun p => if u32sub now p.2.lastSeen > 15000 then false else true

/-- `MeshSwarm::electCoordinator` (MeshSwarm.cpp lines 520-535): scan the
transport node list for the lowest id, starting from the local id; the local
role becomes `"COORD"` exactly when the lowest id is the local id.  Returns
`(coordinatorId, myRole)`. -/
def electCoordinator (myId : Nat) (nodeList : List Nat) : Nat × String :=
  let lowest := nodeList.foldl (fun lowest id => if id < lowest then id else lowest) myId
  (lowest, if lowest = myId then "COORD" else "PEER")

/-- `OTA_PART_SIZE` (MeshSwarm.h line 113): bytes per OTA chunk. -/
def OTA_PART_SIZE : Nat := 1024

/-- The OTA distribution state read and written by the chunk producer:
`currentOTAUpdate.active`, `otaTransferStarted`, `otaLastPartSent`
(MeshSwarm.h lines 308-315). -/
structure OTASendState where
  active : Bool
  transferStarted : Bool
  lastPartSent : Int
deriving Repr, DecidableEq

/-- The outcome of one invocation of the chunk producer: bytes returned to the
transport, whether an HTTP fetch was attempted, how many times `/complete` was
POSTed, and the updated OTA state. -/
structure OTAChunkResult where
  bytesReturned : Nat
  fetched : Bool
  completeReports : Nat
  state : OTASendState
deriving Repr, DecidableEq

/-- The OTA chunk-producer callback installed by `MeshSwarm::startOTADistribution`
(MeshSwarm.cpp lines 1128-1202).  `fetchOk` abstracts the outcome of the ranged
HTTP fetch (status 200/206 and a complete read of `chunkSize` bytes); on
failure the producer returns 0 bytes.  When the part is past the end of the
firmware the producer returns 0 without fetching.  After a successful fetch of
the final part it reports completion and clears `active`. -/
def otaChunkProducer (firmwareSize numParts : Nat) (st : OTASendState)
    (partNo : Nat) (fetchOk : Bool) : OTAChunkResult :=
  let offset := partNo * OTA_PART_SIZE
  let chunkSize := min OTA_PART_SIZE (firmwareSize - offset)
  if offset ≥ firmwareSize then
    ⟨0, false, 0, st⟩
  else if !fetchOk then
    ⟨0, true, 0, st⟩
  else
    let st1 : OTASendState := { st with transferStarted := true, lastPartSent := partNo }
    if partNo + 1 ≥ numParts then
      ⟨chunkSize, true, 1, { st1 with active := false }⟩
    else
      ⟨chunkSize, true, 0, st1⟩

/-- One operation touching the shared state store: a local `setState`, a local
`setStates` batch, an inbound `STATE_SET`, or an inbound `STATE_SYNC`.  Each
operation carries the millisecond clock value at which it runs. -/
inductive Op where
  | localSet (now : Nat) (key value : String)
  | localSetMany (now : Nat) (pairs : List (String × String))
  | inboundSet (now : Nat) (m : StateSetMsg)
  | inboundSync (now : Nat) (msgs : List StateSetMsg)

/-- Apply one operation to a node (the store-relevant part of the node's
evolution; watcher, broadcast and telemetry effects are discarded here). -/
def stepOp (w : Watchers) (n : Node) : Op → Node
  | .localSet now key value => (setState w now n key value).2.1
  | .localSetMany now pairs => (setStates w now n pairs).2.1
  | .inboundSet now m =>
      { n with sharedState := (handleStateSet w now n.sharedState m).1 }
  | .inboundSync now msgs =>
      { n with sharedState := (handleStateSync w now n.sharedState msgs).1 }

/-- Run a sequence of operations from a starting node. -/
def runOps (w : Watchers) (n : Node) (ops : List Op) : Node :=
  ops.foldl (stepOp w) n

/-- The inbound `STATE_SET` entries carried by one operation (a `STATE_SYNC`
contributes each entry of its snapshot). -/
def opInbound : Op → List StateSetMsg
  | .localSet _ _ _ => []
  | .localSetMany _ _ => []
  | .inboundSet _ m => [m]
  | .inboundSync _ msgs => msgs

/-- Upper bound on the number of local writes an operation performs (a batch
counts each of its pairs). -/
def opLocalWrites : Op → Nat
  | .localSet _ _ _ => 1
  | .localSetMany _ pairs => pairs.length
  | .inboundSet _ _ => 0
  | .inboundSync _ _ => 0

/-- Total local-write bound of an operation sequence. -/
def localWrites (ops : List Op) : Nat :=
  (ops.map opLocalWrites).sum

/-- The precedence order of the conflict-resolution rule on `(version, origin)`
pairs: `new` wins over `old` iff `new.version > old.version` or the versions tie
and `new.origin < old.origin` (MeshSwarm.cpp lines 400-404). -/
def prec (nw old : Nat × Nat) : Prop :=
  nw.1 > old.1 ∨ (nw.1 = old.1 ∧ nw.2 < old.2)

instance (nw old : Nat × Nat) : Decidable (prec nw old) := by
  unfold prec; infer_instance

/-- A watcher registry with no registered callbacks, used for concrete runs. -/
def emptyWatchers : Watchers := fun _ => []

/-- The conflict-resolution test of `handleStateSet` as a standalone boolean:
`true` iff the key is absent, or the message version is larger, or it ties and
the message origin is smaller (MeshSwarm.cpp lines 394-405). -/
def shouldUpdateB (s : Store) (m : StateSetMsg) : Bool :=
  match s m.k with
  | none => true
  | some existing =>
      decide (m.ver > existing.version) ||
        (decide (m.ver = existing.version) && decide (m.org < existing.origin))

/-- The `oldValue` computed by `handleStateSet`: the stored value, or `""` when
the key is absent. -/
def oldValueOf (s : Store) (k : String) : String :=
  match s k with
  | none => ""
  | some e => e.value

/-- Store component of `handleStateSync`: fold `handleStateSet` over the
snapshot entries (proof helper). -/
def syncStore (w : Watchers) (now : Nat) (s : Store) (msgs : List StateSetMsg) : Store :=
  msgs.foldl (fun st mm => (handleStateSet w now st mm).1) s

/-- Store component of the `setStates` loop: fold the shared store-mutation
body over the pairs (proof helper). -/
def setStatesStore (w : Watchers) (myId now : Nat) (s : Store)
    (pairs : List (String × String)) : Store :=
  pairs.foldl (fun st kv => (setStateCore w myId now st kv.1 kv.2).2.1) s

/-- All versions stored in `s` lie in `[1, bound]` (proof invariant for the
version analysis). -/
def VersBound (s : Store) (bound : Nat) : Prop :=
  ∀ k e, s k = some e → 1 ≤ e.version ∧ e.version ≤ bound

/-- The new version `setStateCore` computes for `key`: `prior + 1` modulo
`2 ^ 32`, or `1` when absent. -/
def bumpedVersion (s : Store) (key : String) : Nat :=
  match s key with
  | none => 1
  | some e => (e.version + 1) % U32

/-- The store written by the changed branch of `setStateCore`. -/
def coreStore (myId now : Nat) (s : Store) (key value : String) : Store :=
  fun k => if k = key then some ⟨value, bumpedVersion s key, myId, now⟩ else s k

/-- Concrete store holding `"a" ↦ ("x", version 1, origin 1)`. -/
def exStoreA : Store := fun k => if k = "a" then some ⟨"x", 1, 1, 0⟩ else none

/-- Concrete node whose store is `exStoreA` (telemetry disabled). -/
def exNodeUnchanged : Node := ⟨1, exStoreA, false, 0, 0⟩

/-- Concrete store holding `"a" ↦ ("x", version 1, origin 5)`. -/
def exStoreStale : Store := fun k => if k = "a" then some ⟨"x", 1, 5, 0⟩ else none

/-- Concrete node with an empty store and telemetry enabled, both telemetry
timestamps at 0. -/
def exNodeTel : Node := ⟨2, emptyStore, true, 0, 0⟩

/-- Concrete node with an empty store, id 3, telemetry disabled. -/
def exNode3 : Node := ⟨3, emptyStore, false, 0, 0⟩

/-- Concrete store holding `"a" ↦ ("x", version 5, origin 1)`. -/
def exA : Store := fun k => if k = "a" then some ⟨"x", 5, 1, 0⟩ else none

/-- Concrete store holding `"a" ↦ ("x", version 3, origin 2)`. -/
def exB : Store := fun k => if k = "a" then some ⟨"x", 3, 2, 0⟩ else none

/-- Concrete store holding `"m" ↦ ("on", version 1, origin 1)`. -/
def exM : Store := fun k => if k = "m" then some ⟨"on", 1, 1, 0⟩ else none

/-!  Helper lemmas. -/

/-- On in-range operands (`b ≤ a < 2 ^ 32`), wrapping unsigned subtraction is
plain subtraction. -/
lemma u32sub_of_le (a b : Nat) (hb : b ≤ a) (ha : a < U32) : u32sub a b = a - b := by
  unfold u32sub
  rw [Nat.mod_eq_of_lt ha, Nat.mod_eq_of_lt (lt_of_le_of_lt hb ha)]
  rw [show a + U32 - b = (a - b) + U32 by omega, Nat.add_mod_right]
  exact Nat.mod_eq_of_lt (by omega)

/-- Unfolding of `handleStateSet` through the helper names. -/
lemma handleStateSet_eq (w : Watchers) (now : Nat) (s : Store) (m : StateSetMsg) :
    handleStateSet w now s m =
      if m.k.length = 0 then (s, [])
      else if shouldUpdateB s m && !(oldValueOf s m.k = m.v : Bool) then
        (fun key => if key = m.k then some ⟨m.v, m.ver, m.org, now⟩ else s key,
          triggerWatchers w m.k m.v (oldValueOf s m.k))
      else (s, []) := rfl

/-- `handleStateSet` never touches keys other than the message key. -/
lemma handleStateSet_other (w : Watchers) (now : Nat) (s : Store) (m : StateSetMsg)
    (k : String) (hk : k ≠ m.k) : (handleStateSet w now s m).1 k = s k := by
  rw [handleStateSet_eq]
  split
  · rfl
  · split
    · simp [hk]
    · rfl

/-- The store returned by `handleStateSet`, evaluated at the message key, for a
non-empty key: the new entry if the update is accepted and the value differs,
the old cell otherwise. -/
lemma handleStateSet_at_key (w : Watchers) (now : Nat) (s : Store) (m : StateSetMsg)
    (hk : m.k.length ≠ 0) :
    (handleStateSet w now s m).1 m.k =
      if shouldUpdateB s m && !(oldValueOf s m.k = m.v : Bool) then
        some ⟨m.v, m.ver, m.org, now⟩
      else s m.k := by
  rw [handleStateSet_eq]
  rw [if_neg hk]
  split
  · simp
  · rfl

/-- The value of `handleStateSet` at the message key depends only on the cell
the message targets. -/
lemma handleStateSet_congr (w : Watchers) (now : Nat) (s s2 : Store) (m : StateSetMsg)
    (h : s m.k = s2 m.k) :
    (handleStateSet w now s m).1 m.k = (handleStateSet w now s2 m).1 m.k := by
  by_cases hk : m.k.length = 0
  · rw [handleStateSet_eq, handleStateSet_eq, if_pos hk, if_pos hk]
    exact h
  · rw [handleStateSet_at_key w now s m hk, handleStateSet_at_key w now s2 m hk]
    unfold shouldUpdateB oldValueOf
    rw [h]

/-- The fold of `electCoordinator` lands on an element of `a :: L`. -/
lemma foldlMin_mem (a : Nat) (L : List Nat) :
    L.foldl (fun lowest id => if id < lowest then id else lowest) a ∈ a :: L := by
  induction L generalizing a with
  | nil => simp
  | cons b t ih =>
    simp only [List.foldl_cons]
    by_cases h : b < a
    · rw [if_pos h]
      rcases List.mem_cons.mp (ih b) with h1 | h1
      · exact List.mem_cons_of_mem _ (by simp [h1])
      · exact List.mem_cons_of_mem _ (List.mem_cons_of_mem _ h1)
    · rw [if_neg h]
      rcases List.mem_cons.mp (ih a) with h1 | h1
      · simp [h1]
      · exact List.mem_cons_of_mem _ (List.mem_cons_of_mem _ h1)

/-- The fold of `electCoordinator` is a lower bound of `a :: L`. -/
lemma foldlMin_le (a : Nat) (L : List Nat) :
    ∀ x ∈ a :: L, L.foldl (fun lowest id => if id < lowest then id else lowest) a ≤ x := by
  induction L generalizing a with
  | nil =>
    intro x hx
    simp at hx
    simp [hx]
  | cons b t ih =>
    intro x hx
    simp only [List.foldl_cons]
    have hca : (if b < a then b else a) ≤ a := by split <;> omega
    have hcb : (if b < a then b else a) ≤ b := by split <;> omega
    have hhead := ih (if b < a then b else a) _ (List.mem_cons_self _ _)
    rcases List.mem_cons.mp hx with h1 | h1
    · subst h1
      exact le_trans hhead hca
    · rcases List.mem_cons.mp h1 with h2 | h2
      · subst h2
        exact le_trans hhead hcb
      · exact ih _ x (List.mem_cons_of_mem _ h2)

/-!  Claim theorems, counterexamples and witnesses. -/

/-- C10: an inbound `STATE_SET` whose key field is absent or decodes to the
empty string (both decode to `k = ""`) leaves the store unchanged and fires no
watchers, whatever the value, version and origin fields hold. -/
theorem handleStateSet_empty_key_noop (w : Watchers) (now : Nat) (store : Store)
    (v : String) (ver org : Nat) :
    handleStateSet w now store ⟨"", v, ver, org⟩ = (store, []) := rfl

/-- C4: a local `setState` whose value equals the currently stored value
returns `false`, leaves the node (store included) unmodified, fires no
watchers, broadcasts nothing and pushes no telemetry. -/
theorem setState_unchanged_noop (w : Watchers) (now : Nat) (n : Node) (key value : String)
    (e : StateEntry) (hstored : n.sharedState key = some e) (hval : e.value = value) :
    setState w now n key value = (false, n, ⟨[], [], 0⟩) := by
  unfold setState setStateCore
  simp only [hstored, hval, Option.isSome_some, Bool.true_and, decide_eq_true_eq]
  simp

/-- Witness for C4 at a concrete node: overwriting `"a" ↦ "x"` with `"x"` is a
no-op. -/
theorem setState_unchanged_noop_witness :
    setState emptyWatchers 9 exNodeUnchanged "a" "x" = (false, exNodeUnchanged, ⟨[], [], 0⟩) :=
  setState_unchanged_noop emptyWatchers 9 exNodeUnchanged "a" "x" ⟨"x", 1, 1, 0⟩
    (by simp [exNodeUnchanged, exStoreA]) rfl

/-- C6: after `electCoordinator`, the coordinator id is the minimum of the
local id and the transport node list, and the role is `"COORD"` exactly when
that minimum is the local id, `"PEER"` otherwise. -/
theorem electCoordinator_min_rule (myId : Nat) (nodeList : List Nat) :
    (electCoordinator myId nodeList).1 ∈ myId :: nodeList
    ∧ (∀ x ∈ myId :: nodeList, (electCoordinator myId nodeList).1 ≤ x)
    ∧ ((electCoordinator myId nodeList).2 = "COORD" ↔ (electCoordinator myId nodeList).1 = myId)
    ∧ ((electCoordinator myId nodeList).2 = "PEER" ↔ (electCoordinator myId nodeList).1 ≠ myId) := by
  have h1 : (electCoordinator myId nodeList).1
      = nodeList.foldl (fun lowest id => if id < lowest then id else lowest) myId := rfl
  have h2 : (electCoordinator myId nodeList).2
      = if (electCoordinator myId nodeList).1 = myId then "COORD" else "PEER" := rfl
  refine ⟨h1 ▸ foldlMin_mem myId nodeList, h1 ▸ foldlMin_le myId nodeList, ?_, ?_⟩
  · rw [h2]
    by_cases h : (electCoordinator myId nodeList).1 = myId
    · simp [h]
    · simp only [if_neg h]
      constructor
      · intro hs
        exact absurd hs (by decide)
      · intro hs
        exact absurd hs h
  · rw [h2]
    by_cases h : (electCoordinator myId nodeList).1 = myId
    · simp only [if_pos h]
      constructor
      · intro hs
        exact absurd hs (by decide)
      · intro hs
        exact absurd h hs
    · simp [h]

/-- Witness for C6 at a concrete input: with local id 5 and node list
`[3, 9]`, the elected coordinator is bounded by every candidate and the local
role is `"PEER"`. -/
theorem electCoordinator_min_rule_witness :
    (electCoordinator 5 [3, 9]).1 ≤ 3 ∧ (electCoordinator 5 [3, 9]).2 = "PEER" :=
  ⟨(electCoordinator_min_rule 5 [3, 9]).2.1 3 (by simp),
    (electCoordinator_min_rule 5 [3, 9]).2.2.2.mpr (by decide)⟩

/-- C8: `pruneDeadPeers` at time `now` keeps exactly the peers whose heartbeat
is at most 15000 ms old, and keeps them unchanged. -/
theorem pruneDeadPeers_threshold (now : Nat) (peers : List (Nat × Peer))
    (hnow : now < U32) (hseen : ∀ q ∈ peers, q.2.lastSeen ≤ now) :
    ∀ p, p ∈ pruneDeadPeers now peers ↔ p ∈ peers ∧ now - p.2.lastSeen ≤ 15000 := by
  intro p
  unfold pruneDeadPeers
  rw [List.mem_filter]
  constructor
  · rintro ⟨hp, hf⟩
    refine ⟨hp, ?_⟩
    rw [u32sub_of_le now p.2.lastSeen (hseen p hp) hnow] at hf
    split at hf
    · exact absurd hf (by decide)
    · omega
  · rintro ⟨hp, hle⟩
    refine ⟨hp, ?_⟩
    rw [u32sub_of_le now p.2.lastSeen (hseen p hp) hnow]
    rw [if_neg (by omega)]

/-- Witness for C8: at `now = 20000`, the peer last seen at 6000 (14000 ms ago)
survives pruning while the peer last seen at 1000 is dropped. -/
theorem pruneDeadPeers_threshold_witness :
    ((2, (⟨2, "b", "PEER", 6000, true⟩ : Peer)) ∈
        pruneDeadPeers 20000
          [(1, ⟨1, "a", "PEER", 1000, true⟩), (2, ⟨2, "b", "PEER", 6000, true⟩)])
    ∧ ((1, (⟨1, "a", "PEER", 1000, true⟩ : Peer)) ∉
        pruneDeadPeers 20000
          [(1, ⟨1, "a", "PEER", 1000, true⟩), (2, ⟨2, "b", "PEER", 6000, true⟩)]) :=
  ⟨(pruneDeadPeers_threshold 20000 _ (by decide) (by decide) _).mpr ⟨by decide, by decide⟩,
    fun h => by
      have := (pruneDeadPeers_threshold 20000 _ (by decide) (by decide) _).mp h
      exact absurd this.2 (by decide)⟩

/-- C9: the OTA chunk producer returns 0 bytes without fetching when the part
offset is at or past the firmware size; otherwise, on a successful fetch, it
returns exactly `min OTA_PART_SIZE (size − offset)` bytes, and when the part is
the final one it reports `/complete` exactly once and clears `active`. -/
theorem otaChunkProducer_rule (size numParts : Nat) (st : OTASendState) (partNo : Nat)
    (fetchOk : Bool) :
    (partNo * OTA_PART_SIZE ≥ size →
        (otaChunkProducer size numParts st partNo fetchOk).bytesReturned = 0
        ∧ (otaChunkProducer size numParts st partNo fetchOk).fetched = false
        ∧ (otaChunkProducer size numParts st partNo fetchOk).completeReports = 0)
    ∧ (partNo * OTA_PART_SIZE < size → fetchOk = true →
        (otaChunkProducer size numParts st partNo fetchOk).bytesReturned
            = min OTA_PART_SIZE (size - partNo * OTA_PART_SIZE)
        ∧ (otaChunkProducer size numParts st partNo fetchOk).fetched = true
        ∧ (partNo + 1 = numParts →
            (otaChunkProducer size numParts st partNo fetchOk).completeReports = 1
            ∧ (otaChunkProducer size numParts st partNo fetchOk).state.active = false)) := by
  unfold otaChunkProducer
  constructor
  · intro h
    rw [if_pos h]
    exact ⟨rfl, rfl, rfl⟩
  · intro h hf
    rw [if_neg (by omega), hf]
    simp only [Bool.not_true, Bool.false_eq_true, if_false]
    split
    · exact ⟨rfl, rfl, fun _ => ⟨rfl, rfl⟩⟩
    · rename_i hlt
      exact ⟨rfl, rfl, fun heq => absurd (heq ▸ le_refl _) hlt⟩

/-- Witness for C9, the S6 scenario of the spec: firmware of 2560 bytes in 3
parts; part 2 returns 512 bytes, reports completion once and clears
`active`. -/
theorem otaChunkProducer_rule_witness :
    (otaChunkProducer 2560 3 ⟨true, true, 1⟩ 2 true).bytesReturned = 512
    ∧ (otaChunkProducer 2560 3 ⟨true, true, 1⟩ 2 true).completeReports = 1
    ∧ (otaChunkProducer 2560 3 ⟨true, true, 1⟩ 2 true).state.active = false := by
  have h := (otaChunkProducer_rule 2560 3 ⟨true, true, 1⟩ 2 true).2 (by decide) rfl
  refine ⟨?_, (h.2.2 (by decide)).1, (h.2.2 (by decide)).2⟩
  rw [h.1]
  decide

/-- C1 counterexample: message `("a", "x", ver 2, org 5)` against a local entry
`("x", ver 1, org 5)`.  The acceptance condition of the claim holds
(`2 > 1`), yet the local entry is NOT replaced by `(v, ver, org)`: because the
incoming value equals the stored value, `handleStateSet` keeps the old entry
(version 1) instead of storing version 2 (MeshSwarm.cpp line 407 requires
`oldValue != value` on top of acceptance). -/
theorem handleStateSet_accept_without_replace :
    (2 : Nat) > 1
    ∧ (handleStateSet emptyWatchers 7 exStoreStale ⟨"a", "x", 2, 5⟩).1 "a"
        = some ⟨"x", 1, 5, 0⟩
    ∧ (handleStateSet emptyWatchers 7 exStoreStale ⟨"a", "x", 2, 5⟩).1 "a"
        ≠ some ⟨"x", 2, 5, 7⟩ := by
  refine ⟨by decide, by decide, by decide⟩

/-- C1 (amended): for an inbound `STATE_SET` with non-empty key, the local
entry is replaced by `(v, ver, org)` iff the acceptance condition holds (key
absent, or `ver > ver·`, or `ver = ver·` and `org < org·`) AND the incoming
value differs from the previously stored value (`""` when the key is absent);
exactly in that case, and only at that key, the store changes and the watchers
for the key and for `"*"` fire with `(k, v, oldValue)`; otherwise the store and
watcher state are untouched.  The last conjunct identifies the boolean test of
the code with the claim's acceptance condition. -/
theorem handleStateSet_accept_value_rule (w : Watchers) (now : Nat) (store : Store)
    (m : StateSetMsg) (hk : m.k.length ≠ 0) :
    (shouldUpdateB store m = true ∧ m.v ≠ oldValueOf store m.k →
        (handleStateSet w now store m).1 m.k = some ⟨m.v, m.ver, m.org, now⟩
        ∧ (∀ k2, k2 ≠ m.k → (handleStateSet w now store m).1 k2 = store k2)
        ∧ (handleStateSet w now store m).2 = triggerWatchers w m.k m.v (oldValueOf store m.k))
    ∧ (¬(shouldUpdateB store m = true ∧ m.v ≠ oldValueOf store m.k) →
        handleStateSet w now store m = (store, []))
    ∧ (shouldUpdateB store m = true ↔
        store m.k = none
        ∨ ∃ e, store m.k = some e
            ∧ (m.ver > e.version ∨ (m.ver = e.version ∧ m.org < e.origin))) := by
  refine ⟨?_, ?_, ?_⟩
  · rintro ⟨h1, h2⟩
    have hcond : (shouldUpdateB store m && !(oldValueOf store m.k = m.v : Bool)) = true := by
      rw [h1]
      simp only [Bool.true_and, Bool.not_eq_true']
      exact decide_eq_false fun hc => h2 hc.symm
    rw [handleStateSet_eq, if_neg hk, if_pos hcond]
    refine ⟨by simp, fun k2 hk2 => by simp [hk2], rfl⟩
  · intro hneg
    have hcond : ¬((shouldUpdateB store m && !(oldValueOf store m.k = m.v : Bool)) = true) := by
      rw [Bool.and_eq_true]
      rintro ⟨hu, hv⟩
      rw [Bool.not_eq_true', decide_eq_false_iff_not] at hv
      exact hneg ⟨hu, fun hc => hv hc.symm⟩
    rw [handleStateSet_eq, if_neg hk, if_neg hcond]
  · unfold shouldUpdateB
    cases hcell : store m.k with
    | none => simp
    | some e =>
      simp only [Bool.or_eq_true, Bool.and_eq_true, decide_eq_true_eq]
      constructor
      · intro h
        exact Or.inr ⟨e, rfl, by tauto⟩
      · rintro (hnone | ⟨e2, he2, hp⟩)
        · exact absurd hnone (by simp)
        · rw [Option.some_inj] at he2
          subst he2
          tauto

/-- Witness for C1: against the entry `("x", ver 1, org 5)`, the message
`("a", "y", ver 2, org 5)` is accepted with a differing value and the entry is
replaced. -/
theorem handleStateSet_accept_value_rule_witness :
    (handleStateSet emptyWatchers 7 exStoreStale ⟨"a", "y", 2, 5⟩).1 "a"
      = some ⟨"y", 2, 5, 7⟩ :=
  ((handleStateSet_accept_value_rule emptyWatchers 7 exStoreStale ⟨"a", "y", 2, 5⟩
      (by decide)).1 ⟨by decide, by decide⟩).1

/-- `stateTelemetry` never changes the store. -/
lemma stateTelemetry_sharedState (now : Nat) (n : Node) :
    (stateTelemetry now n).1.sharedState = n.sharedState := by
  unfold stateTelemetry
  split
  · split <;> rfl
  · rfl

/-- `stateTelemetry` performs at most one push. -/
lemma stateTelemetry_le_one (now : Nat) (n : Node) : (stateTelemetry now n).2 ≤ 1 := by
  unfold stateTelemetry
  split
  · split <;> simp
  · simp

/-- The debounce rule of `stateTelemetry`, on in-range clocks: below the
minimum interval nothing happens; at or above it, one push and both
timestamps move to `now`. -/
lemma stateTelemetry_spec (now : Nat) (n : Node) (hen : n.telemetryEnabled = true)
    (hle : n.lastStateTelemetryPush ≤ now) (hnow : now < U32) :
    (now - n.lastStateTelemetryPush < STATE_TELEMETRY_MIN_INTERVAL →
        stateTelemetry now n = (n, 0))
    ∧ (STATE_TELEMETRY_MIN_INTERVAL ≤ now - n.lastStateTelemetryPush →
        stateTelemetry now n
          = ({ n with lastTelemetryPush := now, lastStateTelemetryPush := now }, 1)) := by
  unfold stateTelemetry
  rw [hen, u32sub_of_le now n.lastStateTelemetryPush hle hnow]
  constructor
  · intro h
    rw [if_pos rfl, if_neg (by omega)]
  · intro h
    rw [if_pos rfl, if_pos h]

/-- The changed-flag of `setState` is the changed-flag of the store-mutation
body. -/
lemma setState_fst (w : Watchers) (now : Nat) (n : Node) (key value : String) :
    (setState w now n key value).1
      = (setStateCore w n.myId now n.sharedState key value).1 := by
  unfold setState
  dsimp only
  split
  · rename_i h
    exact h.symm
  · rename_i h
    simp only [Bool.not_eq_true] at h
    exact h.symm

/-- When the store-mutation body reports a change, `setState` runs the
telemetry block on the updated node. -/
lemma setState_changed_eq (w : Watchers) (now : Nat) (n : Node) (key value : String)
    (hc : (setStateCore w n.myId now n.sharedState key value).1 = true) :
    setState w now n key value =
      (true,
        (stateTelemetry now
          { n with sharedState := (setStateCore w n.myId now n.sharedState key value).2.1 }).1,
        ⟨(setStateCore w n.myId now n.sharedState key value).2.2.1,
          (setStateCore w n.myId now n.sharedState key value).2.2.2,
          (stateTelemetry now
            { n with
              sharedState := (setStateCore w n.myId now n.sharedState key value).2.1 }).2⟩) := by
  unfold setState
  dsimp only
  rw [hc, if_pos rfl]

/-- C7: with telemetry enabled and an in-range clock, a value-changing
`setState` at time `now` skips the telemetry push and leaves both telemetry
timestamps untouched when `now − lastStateTelemetryPush` is under the 2000 ms
minimum interval, and otherwise performs exactly one push and sets both
`lastTelemetryPush` and `lastStateTelemetryPush` to `now`; a `setStates` batch
performs at most one telemetry push in total. -/
theorem setState_telemetry_debounce (w : Watchers) (now : Nat) (n : Node)
    (key value : String) (hen : n.telemetryEnabled = true)
    (hle : n.lastStateTelemetryPush ≤ now) (hnow : now < U32) :
    ((setState w now n key value).1 = true →
        (now - n.lastStateTelemetryPush < STATE_TELEMETRY_MIN_INTERVAL →
            (setState w now n key value).2.2.telemetryPushes = 0
            ∧ (setState w now n key value).2.1.lastTelemetryPush = n.lastTelemetryPush
            ∧ (setState w now n key value).2.1.lastStateTelemetryPush
                = n.lastStateTelemetryPush)
        ∧ (STATE_TELEMETRY_MIN_INTERVAL ≤ now - n.lastStateTelemetryPush →
            (setState w now n key value).2.2.telemetryPushes = 1
            ∧ (setState w now n key value).2.1.lastTelemetryPush = now
            ∧ (setState w now n key value).2.1.lastStateTelemetryPush = now))
    ∧ (∀ pairs, (setStates w now n pairs).2.2.telemetryPushes ≤ 1) := by
  constructor
  · intro hchanged
    have hc : (setStateCore w n.myId now n.sharedState key value).1 = true := by
      rw [← setState_fst]
      exact hchanged
    rw [setState_changed_eq w now n key value hc]
    have hsp := stateTelemetry_spec now
      { n with sharedState := (setStateCore w n.myId now n.sharedState key value).2.1 }
      hen hle hnow
    constructor
    · intro hlt
      rw [hsp.1 hlt]
      exact ⟨rfl, rfl, rfl⟩
    · intro hge
      rw [hsp.2 hge]
      exact ⟨rfl, rfl, rfl⟩
  · intro pairs
    simp only [setStates]
    split
    · exact stateTelemetry_le_one _ _
    · simp

/-- Witness for C7: on a node with telemetry enabled and both timestamps 0, a
fresh write at `now = 5000` pushes exactly once and moves both timestamps. -/
theorem setState_telemetry_debounce_witness :
    (setState emptyWatchers 5000 exNodeTel "a" "1").2.2.telemetryPushes = 1
    ∧ (setState emptyWatchers 5000 exNodeTel "a" "1").2.1.lastStateTelemetryPush = 5000
    ∧ (setStates emptyWatchers 5000 exNodeTel []).2.2.telemetryPushes ≤ 1 :=
  ⟨(((setState_telemetry_debounce emptyWatchers 5000 exNodeTel "a" "1" rfl (by decide)
        (by decide)).1 (by decide)).2 (by decide)).1,
    (((setState_telemetry_debounce emptyWatchers 5000 exNodeTel "a" "1" rfl (by decide)
        (by decide)).1 (by decide)).2 (by decide)).2.2,
    (setState_telemetry_debounce emptyWatchers 5000 exNodeTel "a" "1" rfl (by decide)
        (by decide)).2 []⟩

/-- `setStateCore` either is a no-op returning `false` (value unchanged) or
returns `true` with the updated store, watcher calls, and broadcast. -/
lemma setStateCore_cases (w : Watchers) (myId now : Nat) (s : Store)
    (key value : String) :
    setStateCore w myId now s key value = (false, s, [], [])
    ∨ setStateCore w myId now s key value
        = (true, coreStore myId now s key value,
            triggerWatchers w key value (oldValueOf s key),
            broadcastState (coreStore myId now s key value) key) := by
  unfold setStateCore coreStore bumpedVersion oldValueOf
  dsimp only
  split
  · exact Or.inl rfl
  · exact Or.inr rfl

/-- When `setStateCore` reports no change, the store is untouched. -/
lemma setStateCore_unchanged_store (w : Watchers) (myId now : Nat) (s : Store)
    (key value : String) (h : (setStateCore w myId now s key value).1 = false) :
    (setStateCore w myId now s key value).2.1 = s := by
  rcases setStateCore_cases w myId now s key value with hc | hc
  · rw [hc]
  · rw [hc] at h
    exact absurd h (by simp)

/-- When `setStateCore` reports a change, the cell at `key` holds the new
entry: the written value, the bumped version, the local id as origin, and the
clock as timestamp. -/
lemma setStateCore_changed_at_key (w : Watchers) (myId now : Nat) (s : Store)
    (key value : String) (h : (setStateCore w myId now s key value).1 = true) :
    (setStateCore w myId now s key value).2.1 key
      = some ⟨value, bumpedVersion s key, myId, now⟩ := by
  rcases setStateCore_cases w myId now s key value with hc | hc
  · rw [hc] at h
    exact absurd h (by simp)
  · rw [hc]
    simp [coreStore]

/-- When the store-mutation body reports no change, `setState` returns the
node unchanged with empty effects. -/
lemma setState_unchanged_eq (w : Watchers) (now : Nat) (n : Node) (key value : String)
    (hc : (setStateCore w n.myId now n.sharedState key value).1 = false) :
    setState w now n key value = (false, n, ⟨[], [], 0⟩) := by
  unfold setState
  dsimp only
  rw [hc, if_neg (by decide)]

/-- The store after `setState` is the store of the store-mutation body. -/
lemma setState_sharedState (w : Watchers) (now : Nat) (n : Node) (key value : String) :
    (setState w now n key value).2.1.sharedState
      = (setStateCore w n.myId now n.sharedState key value).2.1 := by
  cases hc : (setStateCore w n.myId now n.sharedState key value).1 with
  | false =>
    rw [setState_unchanged_eq w now n key value hc,
      setStateCore_unchanged_store w n.myId now n.sharedState key value hc]
  | true =>
    rw [setState_changed_eq w now n key value hc]
    exact stateTelemetry_sharedState now _

/-- The store accumulated by the `setStates` loop is the store-only fold
`setStatesStore`, independently of the other accumulator components. -/
lemma setStates_foldl_store (w : Watchers) (myId now : Nat)
    (pairs : List (String × String)) :
    ∀ (b : Bool) (s : Store) (f : List FiredCall) (bc : List StateSetMsg),
      (pairs.foldl
        (fun (acc : Bool × Store × List FiredCall × List StateSetMsg) kv =>
          (acc.1 || (setStateCore w myId now acc.2.1 kv.1 kv.2).1,
            (setStateCore w myId now acc.2.1 kv.1 kv.2).2.1,
            acc.2.2.1 ++ (setStateCore w myId now acc.2.1 kv.1 kv.2).2.2.1,
            acc.2.2.2 ++ (setStateCore w myId now acc.2.1 kv.1 kv.2).2.2.2))
        (b, s, f, bc)).2.1 = setStatesStore w myId now s pairs := by
  induction pairs with
  | nil =>
    intro b s f bc
    rfl
  | cons kv t ih =>
    intro b s f bc
    simp only [List.foldl_cons]
    exact ih _ _ _ _

/-- The store after `setStates` is the store-only fold over the pairs. -/
lemma setStates_sharedState (w : Watchers) (now : Nat) (n : Node)
    (pairs : List (String × String)) :
    (setStates w now n pairs).2.1.sharedState
      = setStatesStore w n.myId now n.sharedState pairs := by
  unfold setStates
  dsimp only
  split
  · rw [stateTelemetry_sharedState]
    exact setStates_foldl_store w n.myId now pairs false n.sharedState [] []
  · exact setStates_foldl_store w n.myId now pairs false n.sharedState [] []

/-- The store after `handleStateSync` is the store-only fold `syncStore`. -/
lemma handleStateSync_eq_syncStore (w : Watchers) (now : Nat) (s : Store)
    (msgs : List StateSetMsg) :
    (handleStateSync w now s msgs).1 = syncStore w now s msgs := by
  suffices h : ∀ (s0 : Store) (fired : List FiredCall),
      (msgs.foldl
        (fun (acc : Store × List FiredCall) m =>
          ((handleStateSet w now acc.1 m).1, acc.2 ++ (handleStateSet w now acc.1 m).2))
        (s0, fired)).1 = syncStore w now s0 msgs by
    exact h s []
  induction msgs with
  | nil =>
    intro s0 fired
    rfl
  | cons m t ih =>
    intro s0 fired
    simp only [List.foldl_cons]
    exact ih _ _

/-- `VersBound` is monotone in the bound. -/
lemma VersBound_mono (s : Store) (B B2 : Nat) (h : B ≤ B2) (hs : VersBound s B) :
    VersBound s B2 := by
  intro k e he
  rcases hs k e he with ⟨h1, h2⟩
  exact ⟨h1, le_trans h2 h⟩

/-- One application of the store-mutation body raises the version bound by at
most one (given headroom below `2 ^ 32`, so the `uint32_t` bump cannot
wrap). -/
lemma setStateCore_vers (w : Watchers) (myId now : Nat) (s : Store)
    (key value : String) (B : Nat) (hB : B + 1 < U32) (hs : VersBound s B) :
    VersBound (setStateCore w myId now s key value).2.1 (B + 1) := by
  rcases setStateCore_cases w myId now s key value with hc | hc
  · rw [hc]
    exact VersBound_mono s B (B + 1) (by omega) hs
  · rw [hc]
    intro k e he
    simp only [coreStore] at he
    by_cases hk : k = key
    · rw [if_pos hk] at he
      cases he
      unfold bumpedVersion
      cases hcell : s key with
      | none =>
        simp only [hcell]
        omega
      | some e0 =>
        rcases hs key e0 hcell with ⟨h1, h2⟩
        simp only [hcell]
        rw [Nat.mod_eq_of_lt (by omega)]
        omega
    · rw [if_neg hk] at he
      rcases hs k e he with ⟨h1, h2⟩
      exact ⟨h1, by omega⟩

/-- An inbound `STATE_SET` whose version lies in `[1, B]` preserves
`VersBound · B`. -/
lemma handleStateSet_vers (w : Watchers) (now : Nat) (s : Store) (m : StateSetMsg)
    (B : Nat) (hver1 : 1 ≤ m.ver) (hverB : m.ver ≤ B) (hs : VersBound s B) :
    VersBound (handleStateSet w now s m).1 B := by
  rw [handleStateSet_eq]
  split
  · exact hs
  · split
    · intro k e he
      dsimp only at he
      by_cases hk : k = m.k
      · rw [if_pos hk] at he
        cases he
        exact ⟨hver1, hverB⟩
      · rw [if_neg hk] at he
        exact hs k e he
    · exact hs

/-- A full `STATE_SYNC` whose entries all carry versions in `[1, B]` preserves
`VersBound · B`. -/
lemma syncStore_vers (w : Watchers) (now : Nat) (msgs : List StateSetMsg) :
    ∀ (s : Store) (B : Nat),
      (∀ m ∈ msgs, 1 ≤ m.ver ∧ m.ver ≤ B) → VersBound s B →
      VersBound (syncStore w now s msgs) B := by
  induction msgs with
  | nil =>
    intro s B _ hs
    exact hs
  | cons m t ih =>
    intro s B hm hs
    simp only [syncStore, List.foldl_cons]
    exact ih _ B (fun m2 hm2 => hm m2 (List.mem_cons_of_mem _ hm2))
      (handleStateSet_vers w now s m B (hm m (List.mem_cons_self _ _)).1
        (hm m (List.mem_cons_self _ _)).2 hs)

/-- A `setStates` batch of `n` pairs raises the version bound by at most
`n`. -/
lemma setStatesStore_vers (w : Watchers) (myId now : Nat)
    (pairs : List (String × String)) :
    ∀ (s : Store) (B : Nat), B + pairs.length < U32 → VersBound s B →
      VersBound (setStatesStore w myId now s pairs) (B + pairs.length) := by
  induction pairs with
  | nil =>
    intro s B _ hs
    simpa using hs
  | cons kv t ih =>
    intro s B hB hs
    simp only [setStatesStore, List.foldl_cons]
    have hstep := setStateCore_vers w myId now s kv.1 kv.2 B
      (by simp at hB; omega) hs
    have := ih ((setStateCore w myId now s kv.1 kv.2).2.1) (B + 1)
      (by simp at hB ⊢; omega) hstep
    exact VersBound_mono _ _ _ (by simp; omega) this

/-- One operation raises the version bound by at most its local-write count,
provided its inbound versions lie in `[1, B]` and there is headroom below
`2 ^ 32`. -/
lemma stepOp_vers (w : Watchers) (n : Node) (op : Op) (B : Nat)
    (hB : B + opLocalWrites op < U32)
    (hin : ∀ m ∈ opInbound op, 1 ≤ m.ver ∧ m.ver ≤ B)
    (hs : VersBound n.sharedState B) :
    VersBound (stepOp w n op).sharedState (B + opLocalWrites op) := by
  cases op with
  | localSet now key value =>
    show VersBound (setState w now n key value).2.1.sharedState _
    rw [setState_sharedState]
    exact setStateCore_vers w n.myId now n.sharedState key value B hB hs
  | localSetMany now pairs =>
    show VersBound (setStates w now n pairs).2.1.sharedState _
    rw [setStates_sharedState]
    exact setStatesStore_vers w n.myId now pairs n.sharedState B hB hs
  | inboundSet now m =>
    show VersBound (handleStateSet w now n.sharedState m).1 _
    have hm := hin m (by simp [opInbound])
    exact VersBound_mono _ B _ (by simp [opLocalWrites])
      (handleStateSet_vers w now n.sharedState m B hm.1 hm.2 hs)
  | inboundSync now msgs =>
    show VersBound (handleStateSync w now n.sharedState msgs).1 _
    rw [handleStateSync_eq_syncStore]
    exact VersBound_mono _ B _ (by simp [opLocalWrites])
      (syncStore_vers w now msgs n.sharedState B (fun m hm => hin m (by simpa [opInbound])) hs)

/-- Running a sequence of operations raises the version bound by at most the
total local-write count. -/
lemma runOps_vers (w : Watchers) (ops : List Op) :
    ∀ (n : Node) (B : Nat),
      B + localWrites ops < U32 →
      (∀ op ∈ ops, ∀ m ∈ opInbound op, 1 ≤ m.ver ∧ m.ver ≤ B) →
      VersBound n.sharedState B →
      VersBound (runOps w n ops).sharedState (B + localWrites ops) := by
  induction ops with
  | nil =>
    intro n B _ _ hs
    simpa [localWrites] using hs
  | cons op t ih =>
    intro n B hB hin hs
    have hlw : localWrites (op :: t) = opLocalWrites op + localWrites t := by
      simp [localWrites]
    have hstep := stepOp_vers w n op B (by rw [hlw] at hB; omega)
      (hin op (List.mem_cons_self _ _)) hs
    have hrest := ih (stepOp w n op) (B + opLocalWrites op)
      (by rw [hlw] at hB; omega)
      (fun o ho m hm =>
        ⟨(hin o (List.mem_cons_of_mem _ ho) m hm).1,
          le_trans (hin o (List.mem_cons_of_mem _ ho) m hm).2 (by omega)⟩)
      hstep
    show VersBound (runOps w (stepOp w n op) t).sharedState _
    exact VersBound_mono _ _ _ (by rw [hlw]; omega) hrest

/-- C3 counterexample: an inbound `STATE_SET` carrying `ver = 0` (the decode
default for a missing `ver` field) on a fresh key is stored verbatim, so the
store holds an entry with version 0, violating `version ≥ 1`. -/
theorem inbound_version_zero_stored :
    (runOps emptyWatchers exNode3 [.inboundSet 0 ⟨"a", "x", 0, 5⟩]).sharedState "a"
        = some ⟨"x", 0, 5, 0⟩
    ∧ ¬ 1 ≤ (0 : Nat) := by
  refine ⟨by decide, by decide⟩

/-- C3 (amended): starting from the empty store, after any sequence of local
`setState`/`setStates` calls and inbound `STATE_SET`/`STATE_SYNC` messages,
every stored entry has `version ≥ 1` — provided every inbound entry carries a
version `ver` with `1 ≤ ver` and enough headroom below `2 ^ 32` that the
`uint32_t` version counters cannot wrap (`ver + total local writes < 2 ^ 32`,
and fewer than `2 ^ 32` local writes).  Moreover a value-changing local write
stores version `(prior + 1) mod 2 ^ 32` (`prior + 1` absent wraparound; `1`
when the key was absent) and sets the origin to the local node id. -/
theorem version_ge_one_and_local_bump (w : Watchers) (myId ltp lstp : Nat) (tel : Bool)
    (ops : List Op) (hW : localWrites ops < U32)
    (hin : ∀ op ∈ ops, ∀ m ∈ opInbound op, 1 ≤ m.ver ∧ m.ver + localWrites ops < U32) :
    (∀ k e,
        (runOps w ⟨myId, emptyStore, tel, ltp, lstp⟩ ops).sharedState k = some e →
        1 ≤ e.version)
    ∧ (∀ (now2 : Nat) (n : Node) (key value : String),
        (setState w now2 n key value).1 = true →
        (∀ e, n.sharedState key = some e →
            (setState w now2 n key value).2.1.sharedState key
              = some ⟨value, (e.version + 1) % U32, n.myId, now2⟩)
        ∧ (n.sharedState key = none →
            (setState w now2 n key value).2.1.sharedState key
              = some ⟨value, 1, n.myId, now2⟩)) := by
  constructor
  · intro k e he
    have hrun := runOps_vers w ops ⟨myId, emptyStore, tel, ltp, lstp⟩
      (U32 - 1 - localWrites ops)
      (by omega)
      (fun op hop m hm =>
        ⟨(hin op hop m hm).1, by have := (hin op hop m hm).2; omega⟩)
      (fun k2 e2 he2 => absurd he2 (by simp [emptyStore]))
    exact (hrun k e he).1
  · intro now2 n key value hch
    have hc : (setStateCore w n.myId now2 n.sharedState key value).1 = true := by
      rw [← setState_fst]
      exact hch
    have hat := setStateCore_changed_at_key w n.myId now2 n.sharedState key value hc
    constructor
    · intro e he
      rw [setState_sharedState, hat]
      unfold bumpedVersion
      rw [he]
    · intro he
      rw [setState_sharedState, hat]
      unfold bumpedVersion
      rw [he]

/-- Witness for C3: an inbound entry `("a", "x", ver 3, org 9)` followed by a
local write of `"y"` to the same key leaves version 4 and origin 3 (the local
id) in the store, and the invariant instance `1 ≤ 4` is obtained from the
theorem. -/
theorem version_ge_one_and_local_bump_witness :
    (runOps emptyWatchers exNode3
        [.inboundSet 0 ⟨"a", "x", 3, 9⟩, .localSet 1 "a" "y"]).sharedState "a"
      = some ⟨"y", 4, 3, 1⟩
    ∧ 1 ≤ (StateEntry.mk "y" 4 3 1).version :=
  ⟨by decide,
    (version_ge_one_and_local_bump emptyWatchers 3 0 0 false
        [.inboundSet 0 ⟨"a", "x", 3, 9⟩, .localSet 1 "a" "y"]
        (by decide) (by decide)).1 "a" ⟨"y", 4, 3, 1⟩ (by decide)⟩

/-- C5 counterexample: an inbound entry installs version `2 ^ 32 − 1` for key
`"a"`; a subsequent local write wraps the `uint32_t` version counter to 0, so
the newly stored pair `(0, 3)` regresses below the prior pair
`(2 ^ 32 − 1, 7)` under the conflict-resolution order. -/
theorem local_write_wraparound_regresses :
    (runOps emptyWatchers exNode3 [.inboundSet 0 ⟨"a", "x", U32 - 1, 7⟩]).sharedState "a"
        = some ⟨"x", U32 - 1, 7, 0⟩
    ∧ (runOps emptyWatchers exNode3
        [.inboundSet 0 ⟨"a", "x", U32 - 1, 7⟩, .localSet 0 "a" "y"]).sharedState "a"
        = some ⟨"y", 0, 3, 0⟩
    ∧ ¬ prec (0, 3) (U32 - 1, 7) := by
  refine ⟨by decide, by decide, by decide⟩

/-- C5 (amended): whenever the stored `(version, origin)` pair of a key is
replaced — by an accepted inbound `STATE_SET`, or by a value-changing local
write whose prior version is below the `uint32_t` wraparound point
`2 ^ 32 − 1` — the new pair strictly precedes the old one under the rule
`new ≻ old ⇔ new.version > old.version ∨ (new.version = old.version ∧
new.origin < old.origin)`. -/
theorem stored_pair_never_regresses (w : Watchers) (now : Nat) (store : Store) :
    (∀ (m : StateSetMsg) (old nw : StateEntry),
        store m.k = some old →
        (handleStateSet w now store m).1 m.k = some nw →
        nw ≠ old →
        prec (nw.version, nw.origin) (old.version, old.origin))
    ∧ (∀ (n : Node) (key value : String) (old nw : StateEntry),
        n.sharedState key = some old →
        old.version + 1 < U32 →
        (setState w now n key value).2.1.sharedState key = some nw →
        nw ≠ old →
        prec (nw.version, nw.origin) (old.version, old.origin)) := by
  constructor
  · intro m old nw hold hnew hne
    by_cases hk : m.k.length = 0
    · rw [handleStateSet_eq, if_pos hk] at hnew
      dsimp only at hnew
      rw [hold] at hnew
      cases hnew
      exact absurd rfl hne
    · rw [handleStateSet_at_key w now store m hk] at hnew
      by_cases hcond : (shouldUpdateB store m && !(oldValueOf store m.k = m.v : Bool)) = true
      · rw [if_pos hcond] at hnew
        cases hnew
        have hu : shouldUpdateB store m = true := (Bool.and_eq_true .. ▸ hcond).1
        unfold shouldUpdateB at hu
        rw [hold] at hu
        simp only [Bool.or_eq_true, Bool.and_eq_true, decide_eq_true_eq] at hu
        exact hu
      · rw [if_neg hcond] at hnew
        rw [hold] at hnew
        cases hnew
        exact absurd rfl hne
  · intro n key value old nw hold hlt hnew hne
    rw [setState_sharedState] at hnew
    rcases setStateCore_cases w n.myId now n.sharedState key value with hc | hc
    · rw [hc] at hnew
      dsimp only at hnew
      rw [hold] at hnew
      cases hnew
      exact absurd rfl hne
    · rw [hc] at hnew
      simp only [coreStore, if_pos rfl] at hnew
      cases hnew
      unfold bumpedVersion
      rw [hold]
      left
      simp only
      rw [Nat.mod_eq_of_lt hlt]
      omega

/-- Witness for C5: replacing the entry `("x", ver 1, org 5)` by the accepted
inbound message `("a", "y", ver 2, org 5)` moves the pair forward in the
conflict-resolution order. -/
theorem stored_pair_never_regresses_witness :
    prec ((2 : Nat), (5 : Nat)) ((1 : Nat), (5 : Nat)) :=
  (stored_pair_never_regresses emptyWatchers 7 exStoreStale).1
    ⟨"a", "y", 2, 5⟩ ⟨"x", 1, 5, 0⟩ ⟨"y", 2, 5, 7⟩ (by decide) (by decide) (by decide)

/-- A non-empty string has non-zero length. -/
lemma length_ne_zero_of_ne_empty (s : String) (h : s ≠ "") : s.length ≠ 0 := by
  intro hc
  apply h
  cases s with
  | mk data =>
    cases data with
    | nil => rfl
    | cons c cs => simp [String.length] at hc

/-- Re-applying the same `STATE_SET` leaves the cell at its key fixed: the
first application either stored `(v, ver, org)` (after which the strict
acceptance test rejects the identical pair) or changed nothing. -/
lemma handleStateSet_self_stable (w : Watchers) (now : Nat) (s : Store) (m : StateSetMsg) :
    (handleStateSet w now (handleStateSet w now s m).1 m).1 m.k
      = (handleStateSet w now s m).1 m.k := by
  by_cases hk : m.k.length = 0
  · have h1 : handleStateSet w now s m = (s, []) := by
      rw [handleStateSet_eq, if_pos hk]
    rw [h1]
    show (handleStateSet w now s m).1 m.k = s m.k
    rw [h1]
  · by_cases hcond : (shouldUpdateB s m && !(oldValueOf s m.k = m.v : Bool)) = true
    · have hr : (handleStateSet w now s m).1 m.k = some ⟨m.v, m.ver, m.org, now⟩ := by
        rw [handleStateSet_at_key w now s m hk, if_pos hcond]
      have hfalse : shouldUpdateB (handleStateSet w now s m).1 m = false := by
        unfold shouldUpdateB
        rw [hr]
        simp
      rw [handleStateSet_at_key w now _ m hk, hfalse]
      simp
    · have h1 : handleStateSet w now s m = (s, []) := by
        rw [handleStateSet_eq, if_neg hk, if_neg hcond]
      rw [h1]
      show (handleStateSet w now s m).1 m.k = s m.k
      rw [h1]

/-- Applying a list of `STATE_SET` messages none of which targets `k` leaves
the cell at `k` unchanged. -/
lemma syncStore_no_key (w : Watchers) (now : Nat) (msgs : List StateSetMsg) (k : String) :
    ∀ s : Store, (∀ mm ∈ msgs, mm.k ≠ k) → syncStore w now s msgs k = s k := by
  induction msgs with
  | nil =>
    intro s _
    rfl
  | cons h t ih =>
    intro s hkey
    show syncStore w now ((handleStateSet w now s h).1) t k = s k
    rw [ih _ (fun mm hmm => hkey mm (List.mem_cons_of_mem _ hmm))]
    exact handleStateSet_other w now s h k
      (fun he => hkey h (List.mem_cons_self _ _) (he ▸ rfl))

/-- If every message of the list targeting `m0.k` is `m0` itself and the cell
at `m0.k` is already `m0`-stable, the whole fold leaves that cell unchanged. -/
lemma syncStore_stable (w : Watchers) (now : Nat) (m0 : StateSetMsg)
    (msgs : List StateSetMsg) :
    ∀ s : Store, (∀ mm ∈ msgs, mm.k = m0.k → mm = m0) →
      (handleStateSet w now s m0).1 m0.k = s m0.k →
      syncStore w now s msgs m0.k = s m0.k := by
  induction msgs with
  | nil =>
    intro s _ _
    rfl
  | cons h t ih =>
    intro s hkey hstable
    show syncStore w now ((handleStateSet w now s h).1) t m0.k = s m0.k
    by_cases hh : h.k = m0.k
    · have hm : h = m0 := hkey h (List.mem_cons_self _ _) hh
      subst hm
      rw [ih ((handleStateSet w now s h).1)
        (fun mm hmm hk2 => hkey mm (List.mem_cons_of_mem _ hmm) hk2)
        (handleStateSet_self_stable w now s h)]
      exact hstable
    · have hs2 : (handleStateSet w now s h).1 m0.k = s m0.k :=
        handleStateSet_other w now s h m0.k (fun he => hh he.symm)
      rw [ih ((handleStateSet w now s h).1)
        (fun mm hmm hk2 => hkey mm (List.mem_cons_of_mem _ hmm) hk2)
        (by rw [handleStateSet_congr w now _ s m0 hs2, hstable, hs2])]
      exact hs2

/-- If `m0` occurs in the list and every message targeting `m0.k` is `m0`
itself, the fold acts at `m0.k` exactly as one application of `m0`. -/
lemma syncStore_at_key (w : Watchers) (now : Nat) (m0 : StateSetMsg)
    (msgs : List StateSetMsg) :
    ∀ s : Store, (∀ mm ∈ msgs, mm.k = m0.k → mm = m0) → m0 ∈ msgs →
      syncStore w now s msgs m0.k = (handleStateSet w now s m0).1 m0.k := by
  induction msgs with
  | nil =>
    intro s _ hm
    exact absurd hm (by simp)
  | cons h t ih =>
    intro s hkey hm
    show syncStore w now ((handleStateSet w now s h).1) t m0.k = _
    by_cases hh : h.k = m0.k
    · have heq : h = m0 := hkey h (List.mem_cons_self _ _) hh
      subst heq
      exact syncStore_stable w now h t ((handleStateSet w now s h).1)
        (fun mm hmm hk2 => hkey mm (List.mem_cons_of_mem _ hmm) hk2)
        (handleStateSet_self_stable w now s h)
    · have hm0t : m0 ∈ t := by
        rcases List.mem_cons.mp hm with he | ht
        · exact absurd (congrArg StateSetMsg.k he).symm hh
        · exact ht
      have hs2 : (handleStateSet w now s h).1 m0.k = s m0.k :=
        handleStateSet_other w now s h m0.k (fun he => hh he.symm)
      rw [ih _ (fun mm hmm hk2 => hkey mm (List.mem_cons_of_mem _ hmm) hk2) hm0t]
      exact handleStateSet_congr w now _ s m0 hs2

/-- Membership in a snapshot: exactly the entries of the store along the key
list. -/
lemma mem_snapshot_iff (keys : List String) (s : Store) (m : StateSetMsg) :
    m ∈ snapshot keys s
      ↔ ∃ k ∈ keys, ∃ e, s k = some e ∧ m = ⟨k, e.value, e.version, e.origin⟩ := by
  unfold snapshot
  rw [List.mem_filterMap]
  constructor
  · rintro ⟨k, hk, hf⟩
    rcases Option.map_eq_some'.mp hf with ⟨e, he, hm⟩
    exact ⟨k, hk, e, he, hm.symm⟩
  · rintro ⟨k, hk, e, he, hm⟩
    refine ⟨k, hk, ?_⟩
    rw [he, hm]
    rfl

/-- Every snapshot message reflects the cell stored at its own key. -/
lemma snapshot_key_entry (keys : List String) (s : Store) (m : StateSetMsg)
    (hm : m ∈ snapshot keys s) :
    ∃ e, s m.k = some e ∧ m = ⟨m.k, e.value, e.version, e.origin⟩ := by
  rcases (mem_snapshot_iff keys s m).mp hm with ⟨k, _, e, he, hmk⟩
  subst hmk
  exact ⟨e, he, rfl⟩

/-- A key whose cell is empty is targeted by no snapshot message. -/
lemma snapshot_no_key (keys : List String) (s : Store) (k : String)
    (hcell : s k = none) : ∀ mm ∈ snapshot keys s, mm.k ≠ k := by
  intro mm hmm he
  rcases snapshot_key_entry keys s mm hmm with ⟨e, hsk, _⟩
  rw [he, hcell] at hsk
  cases hsk

/-- All snapshot messages targeting `k` coincide with the message built from
the stored cell. -/
lemma snapshot_unique_at (keys : List String) (s : Store) (k : String) (e : StateEntry)
    (hcell : s k = some e) :
    ∀ mm ∈ snapshot keys s, mm.k = k →
      mm = ⟨k, e.value, e.version, e.origin⟩ := by
  intro mm hmm hk2
  rcases snapshot_key_entry keys s mm hmm with ⟨e2, hsk2, hm2⟩
  rw [hk2, hcell] at hsk2
  cases hsk2
  rw [hm2, hk2]

/-- The stored cell is emitted into the snapshot whenever its key is listed. -/
lemma snapshot_mem_of (keys : List String) (s : Store) (k : String) (e : StateEntry)
    (hk : k ∈ keys) (he : s k = some e) :
    (⟨k, e.value, e.version, e.origin⟩ : StateSetMsg) ∈ snapshot keys s :=
  (mem_snapshot_iff keys s _).mpr ⟨k, hk, e, he, rfl⟩

/-- `handleStateSet` at its key, when the key is present: replace iff the pair
wins strictly and the value differs. -/
lemma handleStateSet_present (w : Watchers) (now : Nat) (s : Store) (m : StateSetMsg)
    (hk : m.k.length ≠ 0) (e : StateEntry) (hcell : s m.k = some e) :
    (handleStateSet w now s m).1 m.k =
      if (m.ver > e.version ∨ (m.ver = e.version ∧ m.org < e.origin)) ∧ m.v ≠ e.value
      then some ⟨m.v, m.ver, m.org, now⟩
      else some e := by
  rw [handleStateSet_at_key w now s m hk]
  unfold shouldUpdateB oldValueOf
  rw [hcell]
  by_cases hp : (m.ver > e.version ∨ (m.ver = e.version ∧ m.org < e.origin)) ∧ m.v ≠ e.value
  · rw [if_pos ?_, if_pos hp]
    rcases hp with ⟨hacc, hne⟩
    simp only [Bool.and_eq_true, Bool.or_eq_true, decide_eq_true_eq, Bool.not_eq_true',
      decide_eq_false_iff_not]
    exact ⟨by tauto, fun hc => hne hc.symm⟩
  · rw [if_neg ?_, if_neg hp]
    intro hb
    simp only [Bool.and_eq_true, Bool.or_eq_true, decide_eq_true_eq, Bool.not_eq_true',
      decide_eq_false_iff_not] at hb
    exact hp ⟨by tauto, fun hc => hb.2 hc.symm⟩

/-- `handleStateSet` at its key, when the key is absent: store unless the
value is the empty string. -/
lemma handleStateSet_absent (w : Watchers) (now : Nat) (s : Store) (m : StateSetMsg)
    (hk : m.k.length ≠ 0) (hcell : s m.k = none) :
    (handleStateSet w now s m).1 m.k =
      if m.v = "" then none else some ⟨m.v, m.ver, m.org, now⟩ := by
  rw [handleStateSet_at_key w now s m hk]
  unfold shouldUpdateB oldValueOf
  rw [hcell]
  by_cases hv : m.v = ""
  · rw [if_neg ?_, if_pos hv]
    simp [hv]
  · rw [if_pos ?_, if_neg hv]
    simp only [Bool.true_and, Bool.not_eq_true', decide_eq_false_iff_not]
    exact fun hc => hv hc.symm

/-- C2 counterexample: node A holds `"a" ↦ ("x", ver 5, org 1)` and node B
holds `"a" ↦ ("x", ver 3, org 2)`.  After each applies the other's full
snapshot, A keeps version 5 and B keeps version 3 — B accepts A's entry
(5 > 3) but does not store it because the value `"x"` is unchanged
(MeshSwarm.cpp line 407) — so the stores are not equal entry-for-entry. -/
theorem stateSync_exchange_not_byte_equal :
    ((handleStateSync emptyWatchers 0 exA (snapshot ["a"] exB)).1 "a").map
        StateEntry.version = some 5
    ∧ ((handleStateSync emptyWatchers 0 exB (snapshot ["a"] exA)).1 "a").map
        StateEntry.version = some 3
    ∧ (handleStateSync emptyWatchers 0 exA (snapshot ["a"] exB)).1 "a"
        ≠ (handleStateSync emptyWatchers 0 exB (snapshot ["a"] exA)).1 "a" := by
  refine ⟨by decide, by decide, by decide⟩

/-- C2 (amended): for two stores with no empty-string key, after each node
applies a full `STATE_SYNC` snapshot of the other's store through the
`STATE_SET` acceptance rule, the two stores hold the same keys and agree on
the value of every key — provided every key present in only one of the stores
carries a non-empty value there, and every key present in both with identical
`(version, origin)` carries identical values.  Version and origin of a key may
still differ between the stores (the byte-equality of the original claim
fails, see the counterexample). -/
theorem stateSync_exchange_value_agreement (w1 w2 : Watchers) (now1 now2 : Nat)
    (A B : Store) (KA KB : List String)
    (hKA : ∀ k, (A k).isSome → k ∈ KA)
    (hKB : ∀ k, (B k).isSome → k ∈ KB)
    (hemptyA : A "" = none) (hemptyB : B "" = none)
    (hAonly : ∀ k a, A k = some a → B k = none → a.value ≠ "")
    (hBonly : ∀ k b, B k = some b → A k = none → b.value ≠ "")
    (htie : ∀ k a b, A k = some a → B k = some b →
        a.version = b.version → a.origin = b.origin → a.value = b.value) :
    ∀ k, ((handleStateSync w1 now1 A (snapshot KB B)).1 k).map StateEntry.value
        = ((handleStateSync w2 now2 B (snapshot KA A)).1 k).map StateEntry.value := by
  intro k
  rw [handleStateSync_eq_syncStore, handleStateSync_eq_syncStore]
  cases hA : A k with
  | none =>
    cases hB : B k with
    | none =>
      rw [syncStore_no_key w1 now1 (snapshot KB B) k A (snapshot_no_key KB B k hB),
        syncStore_no_key w2 now2 (snapshot KA A) k B (snapshot_no_key KA A k hA),
        hA, hB]
    | some b =>
      have hkne : k ≠ "" := fun he => by
        rw [he, hemptyB] at hB
        cases hB
      have hk0 : k.length ≠ 0 := length_ne_zero_of_ne_empty k hkne
      have hmem : (⟨k, b.value, b.version, b.origin⟩ : StateSetMsg) ∈ snapshot KB B :=
        snapshot_mem_of KB B k b (hKB k (by rw [hB]; rfl)) hB
      have hAside : syncStore w1 now1 A (snapshot KB B) k
          = (handleStateSet w1 now1 A ⟨k, b.value, b.version, b.origin⟩).1 k :=
        syncStore_at_key w1 now1 ⟨k, b.value, b.version, b.origin⟩ (snapshot KB B) A
          (snapshot_unique_at KB B k b hB) hmem
      have happly : (handleStateSet w1 now1 A ⟨k, b.value, b.version, b.origin⟩).1 k
          = if b.value = "" then none else some ⟨b.value, b.version, b.origin, now1⟩ :=
        handleStateSet_absent w1 now1 A ⟨k, b.value, b.version, b.origin⟩ hk0 hA
      rw [hAside, happly, if_neg (hBonly k b hB hA),
        syncStore_no_key w2 now2 (snapshot KA A) k B (snapshot_no_key KA A k hA), hB]
      rfl
  | some a =>
    cases hB : B k with
    | none =>
      have hkne : k ≠ "" := fun he => by
        rw [he, hemptyA] at hA
        cases hA
      have hk0 : k.length ≠ 0 := length_ne_zero_of_ne_empty k hkne
      have hmem : (⟨k, a.value, a.version, a.origin⟩ : StateSetMsg) ∈ snapshot KA A :=
        snapshot_mem_of KA A k a (hKA k (by rw [hA]; rfl)) hA
      have hBside : syncStore w2 now2 B (snapshot KA A) k
          = (handleStateSet w2 now2 B ⟨k, a.value, a.version, a.origin⟩).1 k :=
        syncStore_at_key w2 now2 ⟨k, a.value, a.version, a.origin⟩ (snapshot KA A) B
          (snapshot_unique_at KA A k a hA) hmem
      have happly : (handleStateSet w2 now2 B ⟨k, a.value, a.version, a.origin⟩).1 k
          = if a.value = "" then none else some ⟨a.value, a.version, a.origin, now2⟩ :=
        handleStateSet_absent w2 now2 B ⟨k, a.value, a.version, a.origin⟩ hk0 hB
      rw [hBside, happly, if_neg (hAonly k a hA hB),
        syncStore_no_key w1 now1 (snapshot KB B) k A (snapshot_no_key KB B k hB), hA]
      rfl
    | some b =>
      have hkne : k ≠ "" := fun he => by
        rw [he, hemptyA] at hA
        cases hA
      have hk0 : k.length ≠ 0 := length_ne_zero_of_ne_empty k hkne
      have hAside : syncStore w1 now1 A (snapshot KB B) k
          = (handleStateSet w1 now1 A ⟨k, b.value, b.version, b.origin⟩).1 k :=
        syncStore_at_key w1 now1 ⟨k, b.value, b.version, b.origin⟩ (snapshot KB B) A
          (snapshot_unique_at KB B k b hB)
          (snapshot_mem_of KB B k b (hKB k (by rw [hB]; rfl)) hB)
      have hBside : syncStore w2 now2 B (snapshot KA A) k
          = (handleStateSet w2 now2 B ⟨k, a.value, a.version, a.origin⟩).1 k :=
        syncStore_at_key w2 now2 ⟨k, a.value, a.version, a.origin⟩ (snapshot KA A) B
          (snapshot_unique_at KA A k a hA)
          (snapshot_mem_of KA A k a (hKA k (by rw [hA]; rfl)) hA)
      have happlyA : (handleStateSet w1 now1 A ⟨k, b.value, b.version, b.origin⟩).1 k
          = if (b.version > a.version ∨ (b.version = a.version ∧ b.origin < a.origin))
                ∧ b.value ≠ a.value
            then some ⟨b.value, b.version, b.origin, now1⟩ else some a :=
        handleStateSet_present w1 now1 A ⟨k, b.value, b.version, b.origin⟩ hk0 a hA
      have happlyB : (handleStateSet w2 now2 B ⟨k, a.value, a.version, a.origin⟩).1 k
          = if (a.version > b.version ∨ (a.version = b.version ∧ a.origin < b.origin))
                ∧ a.value ≠ b.value
            then some ⟨a.value, a.version, a.origin, now2⟩ else some b :=
        handleStateSet_present w2 now2 B ⟨k, a.value, a.version, a.origin⟩ hk0 b hB
      rw [hAside, hBside, happlyA, happlyB]
      by_cases hv : a.value = b.value
      · rw [if_neg (fun hP => hP.2 hv.symm), if_neg (fun hP => hP.2 hv)]
        simp [hv]
      · rcases Nat.lt_trichotomy a.version b.version with hlt | heq | hgt
        · rw [if_pos ⟨Or.inl hlt, fun hc => hv hc.symm⟩,
            if_neg (by rintro ⟨hacc, hvv⟩; rcases hacc with h | ⟨h1, h2⟩ <;> omega)]
          rfl
        · rcases Nat.lt_trichotomy a.origin b.origin with holt | hoeq | hogt
          · rw [if_neg (by rintro ⟨hacc, hvv⟩; rcases hacc with h | ⟨h1, h2⟩ <;> omega),
              if_pos ⟨Or.inr ⟨heq, holt⟩, hv⟩]
            rfl
          · exact absurd (htie k a b hA hB heq hoeq) hv
          · rw [if_pos ⟨Or.inr ⟨heq.symm, hogt⟩, fun hc => hv hc.symm⟩,
              if_neg (by rintro ⟨hacc, hvv⟩; rcases hacc with h | ⟨h1, h2⟩ <;> omega)]
            rfl
        · rw [if_neg (by rintro ⟨hacc, hvv⟩; rcases hacc with h | ⟨h1, h2⟩ <;> omega),
            if_pos ⟨Or.inl hgt, hv⟩]
          rfl

/-- Witness for C2: A holds `"m" ↦ ("on", 1, 1)`, B is empty; after the
exchange both sides map `"m"` to the value `"on"`. -/
theorem stateSync_exchange_value_agreement_witness :
    ((handleStateSync emptyWatchers 4 exM (snapshot [] emptyStore)).1 "m").map
        StateEntry.value
      = ((handleStateSync emptyWatchers 9 emptyStore (snapshot ["m"] exM)).1 "m").map
        StateEntry.value :=
  stateSync_exchange_value_agreement emptyWatchers emptyWatchers 4 9 exM emptyStore
    ["m"] []
    (fun k h => by
      by_cases hk : k = "m"
      · simp [hk]
      · simp [exM, hk] at h)
    (fun k h => by simp [emptyStore] at h)
    (by decide) rfl
    (fun k a ha _ => by
      by_cases hk : k = "m"
      · subst hk
        have hm : exM "m" = some ⟨"on", 1, 1, 0⟩ := by decide
        rw [hm, Option.some_inj] at ha
        rw [← ha]
        decide
      · simp [exM, hk] at ha)
    (fun k b hb _ => by simp [emptyStore] at hb)
    (fun k a b _ hb => by simp [emptyStore] at hb)
    "m"

end MeshSwarm
